import Mathlib

/-!
Verification development for the Substack-to-Markdown ingestion pipeline
(`substack_scraper.py`).  Strings are modelled as lists of characters
(`Str`); Python string primitives (`strip`, `split`, `replace`, `find`,
substring tests, `isdigit`) are modelled for the ASCII fragment the
pipeline manipulates.  Fallible parsing is modelled with `Option`; the
network, the HTML parser and the HTML-to-markdown converter are abstract
function parameters, mirroring the injected collaborators of the code.
-/

set_option maxHeartbeats 1000000

/-- Character-list model of Python strings. -/
abbrev Str := List Char

/-- Coerce a Lean string literal into the model. -/
def str (s : String) : Str := s.toList

/-- Python whitespace (ASCII fragment): the character class stripped by
`str.strip` and used by `str.split()` and `\s`. -/
def pyIsSpace (c : Char) : Bool :=
  c = ' ' || c = '\t' || c = '\n' || c = '\r' || c = '\x0b' || c = '\x0c'

/-- Model of Python `str.lstrip()`. -/
def pyLStrip (s : Str) : Str := s.dropWhile pyIsSpace

/-- Model of Python `str.strip()`. -/
def pyStrip (s : Str) : Str := ((s.dropWhile pyIsSpace).reverse.dropWhile pyIsSpace).reverse

/-- Model of Python `str.lower()` (ASCII fragment). -/
def pyLower (s : Str) : Str := s.map Char.toLower

/-- `begWith pat s` holds when `pat` occurs at the very start of `s`. -/
def begWith : Str → Str → Bool
  | [], _ => true
  | _ :: _, [] => false
  | p :: ps, c :: cs => p == c && begWith ps cs

/-- Model of Python `pat in s` (substring containment). -/
def containsSub : Str → Str → Bool
  | [], pat => pat.isEmpty
  | s@(_ :: rest), pat => begWith pat s || containsSub rest pat

/-- Model of Python `s.find(pat)`: index of the first occurrence, `none`
standing for Python's `-1`. -/
def findSub : Str → Str → Option Nat
  | [], pat => if pat.isEmpty then some 0 else none
  | s@(_ :: rest), pat =>
    if begWith pat s then some 0 else (findSub rest pat).map (· + 1)

/-- Model of Python `s.find(pat, start)`. -/
def findSubFrom (s pat : Str) (start : Nat) : Option Nat :=
  (findSub (s.drop start) pat).map (· + start)

/-- Fuel-driven worker for `replaceAll`; the fuel is the length of the
remaining string, which bounds the number of recursive steps. -/
def replaceAllFuel : Nat → Str → Str → Str → Str
  | 0, _, _, s => s
  | Nat.succ n, pat, rep, s =>
    match s with
    | [] => []
    | c :: rest =>
      if begWith pat s then rep ++ replaceAllFuel n pat rep (s.drop pat.length)
      else c :: replaceAllFuel n pat rep rest

/-- Model of Python `s.replace(pat, rep)` for a non-empty `pat` (the code
only ever replaces non-empty literals). -/
def replaceAll (pat rep s : Str) : Str :=
  if pat.isEmpty then s else replaceAllFuel s.length pat rep s

/-- Worker for `pySplit`, accumulating the current word reversed. -/
def pySplitAux : Str → Str → List Str
  | [], acc => if acc.isEmpty then [] else [acc.reverse]
  | c :: rest, acc =>
    if pyIsSpace c then
      if acc.isEmpty then pySplitAux rest [] else acc.reverse :: pySplitAux rest []
    else pySplitAux rest (c :: acc)

/-- Model of Python `s.split()` (split on whitespace runs, no empty parts). -/
def pySplit (s : Str) : List Str := pySplitAux s []

/-- Fuel-driven worker for `pySplitOn`. -/
def pySplitOnFuel : Nat → Str → Str → Str → List Str
  | 0, _, acc, s => [acc.reverse ++ s]
  | Nat.succ n, sep, acc, s =>
    match s with
    | [] => [acc.reverse]
    | c :: rest =>
      if begWith sep s then acc.reverse :: pySplitOnFuel n sep [] (s.drop sep.length)
      else pySplitOnFuel n sep (c :: acc) rest

/-- Model of Python `s.split(sep)` for a non-empty separator. -/
def pySplitOn (sep s : Str) : List Str := pySplitOnFuel s.length sep [] s

/-- Python `c.isdigit()` for a single ASCII character. -/
def isDigitChar (c : Char) : Bool := c.isDigit

/-- Model of Python `s.isdigit()` (non-empty and all digits; ASCII fragment). -/
def pyIsDigitStr (s : Str) : Bool := !s.isEmpty && s.all isDigitChar

/-- Numeric value of an ASCII digit character. -/
def toDigit (c : Char) : Option Nat :=
  if c.isDigit then some (c.toNat - 48) else none

/-- The decimal digit character for `k` (callers keep `k ≤ 9`). -/
def digitOfNat (k : Nat) : Char :=
  match k with
  | 0 => '0' | 1 => '1' | 2 => '2' | 3 => '3' | 4 => '4'
  | 5 => '5' | 6 => '6' | 7 => '7' | 8 => '8' | _ => '9'

/-- Zero-padded two-digit decimal rendering, as `strftime` `%m` / `%d`. -/
def pad2 (n : Nat) : Str := [digitOfNat (n / 10 % 10), digitOfNat (n % 10)]

/-- Zero-padded four-digit decimal rendering, as `strftime` `%Y`. -/
def pad4 (n : Nat) : Str :=
  [digitOfNat (n / 1000 % 10), digitOfNat (n / 100 % 10),
   digitOfNat (n / 10 % 10), digitOfNat (n % 10)]

/-- `strftime("%Y-%m-%d")` on a (year, month, day) triple. -/
def fmtYmd (y m d : Nat) : Str := pad4 y ++ '-' :: (pad2 m ++ '-' :: pad2 d)

/-- Gregorian leap-year test, as used by `datetime`. -/
def isLeap (y : Nat) : Bool := y % 4 = 0 && (y % 100 ≠ 0 || y % 400 = 0)

/-- Days in a month, as validated by `datetime`'s constructor. -/
def daysInMonth (y m : Nat) : Nat :=
  if m = 2 then (if isLeap y then 29 else 28)
  else if m = 4 || m = 6 || m = 9 || m = 11 then 30
  else 31

/-- Lower-cased English month abbreviation table backing `strptime`'s `%b`
(the `re` pattern is case-insensitive, hence the lower-cased key). -/
def monthShortNum (lc : Str) : Option Nat :=
  if lc = str "jan" then some 1
  else if lc = str "feb" then some 2
  else if lc = str "mar" then some 3
  else if lc = str "apr" then some 4
  else if lc = str "may" then some 5
  else if lc = str "jun" then some 6
  else if lc = str "jul" then some 7
  else if lc = str "aug" then some 8
  else if lc = str "sep" then some 9
  else if lc = str "oct" then some 10
  else if lc = str "nov" then some 11
  else if lc = str "dec" then some 12
  else none

/-- `strptime` `%b`: consume three characters forming a month abbreviation,
case-insensitively. -/
def month3 : Str → Option (Nat × Str)
  | c1 :: c2 :: c3 :: rest =>
    (monthShortNum [c1.toLower, c2.toLower, c3.toLower]).map (fun m => (m, rest))
  | _ => none

/-- Whitespace in a `strptime` format string matches one or more whitespace
characters; the match is greedy and the follow-up patterns here can never
force backtracking into it. -/
def munchWs1 : Str → Option Str
  | c :: rest => if pyIsSpace c then some (rest.dropWhile pyIsSpace) else none
  | [] => none

/-- Consume one expected literal character. -/
def expectChar (c : Char) : Str → Option Str
  | x :: rest => if x = c then some rest else none
  | [] => none

/-- `strptime` `%Y`: exactly four decimal digits. -/
def parse4Y : Str → Option (Nat × Str)
  | c1 :: c2 :: c3 :: c4 :: rest =>
    match toDigit c1, toDigit c2, toDigit c3, toDigit c4 with
    | some a, some b, some c, some d => some (((a * 10 + b) * 10 + c) * 10 + d, rest)
    | _, _, _, _ => none
  | _ => none

/-- `strptime` `%d` (regex `3[01]|[12]\d|0[1-9]|[1-9]`, alternatives tried
in order; the trailing format characters in every use make backtracking
from a two-digit to a one-digit match fail anyway, so the greedy
first-alternative reading is faithful). -/
def parseDayRe : Str → Option (Nat × Str)
  | [] => none
  | c :: rest =>
    match toDigit c with
    | none => none
    | some d1 =>
      match rest with
      | [] => if 1 ≤ d1 then some (d1, []) else none
      | c2 :: rest2 =>
        match toDigit c2 with
        | none => if 1 ≤ d1 then some (d1, rest) else none
        | some d2 =>
          if d1 = 3 && d2 ≤ 1 then some (30 + d2, rest2)
          else if d1 = 1 || d1 = 2 then some (10 * d1 + d2, rest2)
          else if d1 = 0 && 1 ≤ d2 then some (d2, rest2)
          else if 1 ≤ d1 then some (d1, rest)
          else none

/-- `strptime` `%m` (regex `1[0-2]|0[1-9]|[1-9]`). -/
def parseMonthRe : Str → Option (Nat × Str)
  | [] => none
  | c :: rest =>
    match toDigit c with
    | none => none
    | some d1 =>
      match rest with
      | [] => if 1 ≤ d1 then some (d1, []) else none
      | c2 :: rest2 =>
        match toDigit c2 with
        | none => if 1 ≤ d1 then some (d1, rest) else none
        | some d2 =>
          if d1 = 1 && d2 ≤ 2 then some (10 + d2, rest2)
          else if d1 = 0 && 1 ≤ d2 then some (d2, rest2)
          else if 1 ≤ d1 then some (d1, rest)
          else none

/-- Model of `datetime.strptime(s, "%b %d, %Y")`: month abbreviation,
whitespace, day, a comma, whitespace, four-digit year, end of input, then
`datetime`'s calendar validity check. -/
def parse_bdY (s : Str) : Option (Nat × Nat × Nat) :=
  match month3 s with
  | none => none
  | some (m, s1) =>
    match munchWs1 s1 with
    | none => none
    | some s2 =>
      match parseDayRe s2 with
      | none => none
      | some (d, s3) =>
        match expectChar ',' s3 with
        | none => none
        | some s4 =>
          match munchWs1 s4 with
          | none => none
          | some s5 =>
            match parse4Y s5 with
            | none => none
            | some (y, s6) =>
              if s6.isEmpty && 1 ≤ y && 1 ≤ d && d ≤ daysInMonth y m then
                some (y, m, d)
              else none

/-- Model of `datetime.strptime(s, "%Y-%m-%d")`. -/
def parse_Ymd (s : Str) : Option (Nat × Nat × Nat) :=
  match parse4Y s with
  | none => none
  | some (y, s1) =>
    match expectChar '-' s1 with
    | none => none
    | some s2 =>
      match parseMonthRe s2 with
      | none => none
      | some (m, s3) =>
        match expectChar '-' s3 with
        | none => none
        | some s4 =>
          match parseDayRe s4 with
          | none => none
          | some (d, s5) =>
            if s5.isEmpty && 1 ≤ y && 1 ≤ d && d ≤ daysInMonth y m then
              some (y, m, d)
            else none

/-- The unit-word normalisations applied by `format_substack_date` before
any parse attempt (lines 46-48 of the source), innermost first. -/
def unitReplacements (s : Str) : Str :=
  replaceAll (str " minute") (str " min")
    (replaceAll (str " minutes") (str " min")
      (replaceAll (str " day") (str " day")
        (replaceAll (str " days") (str " day")
          (replaceAll (str " hour") (str " hr")
            (replaceAll (str " hours") (str " hr") s)))))

/-- The cleaned input string `format_substack_date` actually works on:
stripped, with unit words normalised. -/
def normalizeInput (s : Str) : Str := unitReplacements (pyStrip s)

/-- Month-abbreviation table of the second parsing attempt; keys are exact
(case-sensitive) as in the Python dict lookup. -/
def monthAbbrExact (p : Str) : Option Nat :=
  if p = str "Jan" then some 1
  else if p = str "Feb" then some 2
  else if p = str "Mar" then some 3
  else if p = str "Apr" then some 4
  else if p = str "May" then some 5
  else if p = str "Jun" then some 6
  else if p = str "Jul" then some 7
  else if p = str "Aug" then some 8
  else if p = str "Sep" then some 9
  else if p = str "Oct" then some 10
  else if p = str "Nov" then some 11
  else if p = str "Dec" then some 12
  else none

/-- Second parsing attempt of `format_substack_date` (lines 64-83): remove
commas, split on whitespace, require exactly three parts, look the month up
in the abbreviation table and re-parse day and year through
`strptime("%m %d %Y")` (whose `%d` must consume the whole day part and
whose `%Y` requires exactly four digits). -/
def attempt2 (s : Str) : Option Str :=
  match pySplit (replaceAll (str ",") [] s) with
  | [p1, p2, p3] =>
    match monthAbbrExact (pyStrip p1) with
    | none => none
    | some m =>
      if pyIsDigitStr (pyStrip p2) && pyIsDigitStr (pyStrip p3) then
        match parseDayRe (pyStrip p2) with
        | some (d, []) =>
          match parse4Y (pyStrip p3) with
          | some (y, []) =>
            if 1 ≤ y && 1 ≤ d && d ≤ daysInMonth y m then some (fmtYmd y m d) else none
          | _ => none
        | _ => none
      else none
  | _ => none

/-- The recency-marker test of line 86. -/
def hasRecencyMarker (s : Str) : Bool :=
  containsSub s (str "ago") || containsSub s (str "hr") || containsSub s (str "min")

/-- The current date, an implicit input of `format_substack_date`
(`datetime.now()`), passed explicitly to keep the model pure. -/
structure Today where
  y : Nat
  m : Nat
  d : Nat
deriving DecidableEq, Repr

/-- Model of `format_substack_date` (lines 35-103): sentinel check, strip
and unit normalisation, then the chain of parse attempts, falling back to
the (cleaned) input string. -/
def format_substack_date (t : Today) (s0 : Str) : Str :=
  if s0 = str "Date not found" then str "Unknown Date"
  else
    let s := normalizeInput s0
    match parse_bdY s with
    | some (y, m, d) => fmtYmd y m d
    | none =>
      match attempt2 s with
      | some r => r
      | none =>
        if hasRecencyMarker s then fmtYmd t.y t.m t.d
        else
          match parse_bdY (s ++ str ", " ++ (Nat.repr t.y).toList) with
          | some (y, m, d) => fmtYmd y m d
          | none =>
            match parse_Ymd s with
            | some (y, m, d) => fmtYmd y m d
            | none => s

/-- Model of `combine_metadata_and_content` (lines 342-359): H1 title,
optional H2 subtitle, bold date line, bold Likes line, blank line, body. -/
def combine_metadata_and_content (title subtitle date like_count content : Str) : Str :=
  let m1 := str "# " ++ title ++ str "\n\n"
  let m2 := if subtitle.isEmpty then m1 else m1 ++ str "## " ++ subtitle ++ str "\n\n"
  let m3 := m2 ++ str "**" ++ date ++ str "**\n\n"
  let m4 := m3 ++ str "**Likes:** " ++ like_count ++ str "\n\n"
  m4 ++ content

/-- The metadata marker the EPUB assembler searches for (line 525). -/
def metadataMarker : Str := str "**Likes:**"

/-- The header part of an assembled document up to and including the bold
date line — everything that precedes the `**Likes:**` marker. -/
def headerBeforeLikes (title subtitle date : Str) : Str :=
  let m1 := str "# " ++ title ++ str "\n\n"
  let m2 := if subtitle.isEmpty then m1 else m1 ++ str "## " ++ subtitle ++ str "\n\n"
  m2 ++ str "**" ++ date ++ str "**\n\n"

/-- Model of the EPUB assembler's header-stripping step (lines 525-547):
find `**Likes:**`, cut through the end of that line, and `lstrip` the
remainder; if the marker has no following newline the result is empty, and
if the marker is absent the whole content is kept. -/
def strip_metadata_header (md : Str) : Str :=
  match findSub md metadataMarker with
  | none => md
  | some i =>
    match findSubFrom md (str "\n") (i + metadataMarker.length) with
    | none => []
    | some j => pyLStrip (md.drop (j + 1))

/-- Result of the BeautifulSoup element queries `extract_post_data` makes
against a post page: each field is the `.text` of the selected element (or
for the content container, its outer HTML), `none` when no element
matches. -/
structure Soup where
  titleEl : Option Str
  subtitleEl : Option Str
  dateEl : Option Str
  likeEl : Option Str
  contentEl : Option Str
deriving DecidableEq, Repr

/-- Model of `extract_post_data` (lines 361-402).  `h2m` is the injected
`html_to_md` conversion (html2text); `t` is the current date used by date
normalisation.  Returns `(title, subtitle, like_count, date, md_content)`
in the source's order. -/
def extract_post_data (h2m : Str → Str) (t : Today) (soup : Soup) :
    Str × Str × Str × Str × Str :=
  let title := match soup.titleEl with
    | some s => pyStrip s
    | none => str "Title not found"
  let subtitle := match soup.subtitleEl with
    | some s => pyStrip s
    | none => []
  let raw_date_full := match soup.dateEl with
    | some s => pyStrip s
    | none => str "Date not found"
  let raw_date_isolated :=
    if containsSub raw_date_full (str " - ") then
      (pySplitOn (str " - ") raw_date_full).getLastD []
    else raw_date_full
  let date := format_substack_date t raw_date_isolated
  let like_count := match soup.likeEl with
    | some s => if pyIsDigitStr (pyStrip s) then pyStrip s else str "0"
    | none => str "0"
  let content_html := match soup.contentEl with
    | some h => h
    | none => str "<p>Content not found</p>"
  let md := h2m content_html
  (title, subtitle, like_count, date, combine_metadata_and_content title subtitle date like_count md)

/-- The paywall phrases of `is_article_premium_from_feed` (lines 733-738). -/
def paidSubscriberTexts : List Str :=
  [str "this post is for paid subscribers",
   str "to read the full post, subscribe",
   str "this is a preview of a paid post",
   str "upgrade to paid"]

/-- Result of parsing a feed snippet with BeautifulSoup, abstracting the
three queries `is_article_premium_from_feed` makes: the extracted plain
text, the `.text` of a subscribe call-to-action anchor (an `a.button`
whose `href` contains `subscribe?`) when one exists, and the
`og:description` metadata content when present and non-empty. -/
structure ParsedSnippet where
  text : Str
  subscribeButton : Option Str
  ogDescription : Option Str
deriving DecidableEq, Repr

/-- Model of `SubstackScraper.is_article_premium_from_feed` (lines
721-749).  `parse` is the injected BeautifulSoup collaborator and `feed`
the accumulated `feed_item_contents` mapping (raw snippet per URL). -/
def is_article_premium_from_feed (parse : Str → ParsedSnippet) (feed : Str → Option Str)
    (url : Str) : Bool :=
  match feed url with
  | none => false
  | some snippet =>
    if snippet.isEmpty then false
    else
      let fs := parse snippet
      if paidSubscriberTexts.any (fun t => containsSub (pyLower fs.text) (pyLower t)) then true
      else
        match fs.subscribeButton with
        | none => false
        | some btnText =>
          let desc := pyLower ((fs.ogDescription).getD [])
          if containsSub (pyLower btnText) (str "subscribe") &&
              (containsSub desc (str "only for subscribers") || containsSub desc (str "paid post")) then
            true
          else false

/-- Model of `filter_urls` (lines 247-252). -/
def filter_urls (urls keywords : List Str) : List Str :=
  urls.filter (fun url => keywords.all (fun keyword => !containsSub url keyword))

/-- The excluded-path keywords configured in `__init__` (line 156). -/
def defaultKeywords : List Str := [str "about", str "archive", str "podcast"]

/-- Model of the URL-merging part of `_get_all_post_urls_and_feed_content`
(lines 160-189), as a function of the two already-fetched sources: the
sitemap URL list and the feed URL list (the keys of the feed mapping, in
feed order). -/
def get_all_post_urls (keywords sitemap_urls feed_urls : List Str) : List Str :=
  if sitemap_urls.isEmpty then
    if feed_urls.isEmpty then []
    else filter_urls feed_urls keywords
  else
    let combined := feed_urls.foldl
      (fun acc url => if acc.contains url then acc else acc ++ [url]) sitemap_urls
    filter_urls combined keywords

/-- A persisted post record, the JSON object built by `scrape_posts` and
consumed by `save_essays_data_to_json` and the EPUB assembler.  Fields are
optional to model JSON dictionaries accessed with `.get`. -/
structure Record where
  title : Option Str
  subtitle : Option Str
  like_count : Option Str
  date : Option Str
  file_link : Option Str
  html_link : Option Str
deriving DecidableEq, Repr

/-- Model of `save_essays_data_to_json`'s merge (lines 408-422): when a
dataset already exists, append only the new records not already present. -/
def save_essays_data (existing : Option (List Record)) (essays_data : List Record) :
    List Record :=
  match existing with
  | none => essays_data
  | some existing_data =>
    existing_data ++ essays_data.filter (fun data => !existing_data.contains data)

/-- The date-validity filter of the EPUB assembler (lines 452-463): the
date must be present, non-empty (Python truthiness), not a sentinel, and
parse as `%Y-%m-%d`. -/
def validDate (p : Record) : Bool :=
  match p.date with
  | none => false
  | some d =>
    !d.isEmpty && d ≠ str "Unknown Date" && d ≠ str "Date not found" && (parse_Ymd d).isSome

/-- The records surviving the EPUB assembler's date filter. -/
def validPosts (posts : List Record) : List Record := posts.filter validDate

/-- Python string comparison (lexicographic by code point). -/
def strLt : Str → Str → Bool
  | [], [] => false
  | [], _ :: _ => true
  | _ :: _, [] => false
  | a :: as_, b :: bs => a.toNat < b.toNat || (a = b && strLt as_ bs)

/-- The sort key comparison of line 468: the pair `(date, title or "")`
compared as Python tuples; `keyLe` is the reflexive order used for the
stable sort. -/
def keyLe (p q : Record) : Prop :=
  strLt (p.date.getD []) (q.date.getD []) = true ∨
    (p.date.getD [] = q.date.getD [] ∧
      strLt (q.title.getD []) (p.title.getD []) = false)

instance : DecidableRel keyLe := fun p q => by
  unfold keyLe
  infer_instance

/-- The chapter-eligibility test of lines 506-510: a `file_link` that is
present, non-empty and names an existing file. -/
def chapterFileOk (fileExists : Str → Bool) (p : Record) : Bool :=
  match p.file_link with
  | none => false
  | some fl => !fl.isEmpty && fileExists fl

/-- Model of `create_epub_from_author_markdown` (lines 424-621), reduced to
its observable chapter structure: `none` when no EPUB file is written (the
dataset file is missing, or the dataset holds no records and the function
returns early at line 447), otherwise `some` of the chapter source records
in spine order — the date-valid records sorted stably by `(date, title)`
and restricted to those whose markdown file exists. -/
def create_epub (fileExists : Str → Bool) (dataset : Option (List Record)) :
    Option (List Record) :=
  match dataset with
  | none => none
  | some posts =>
    if posts.isEmpty then none
    else some ((List.insertionSort keyLe (validPosts posts)).filter (chapterFileOk fileExists))

/-- An on-disk file system, as an association list from path to content. -/
abbrev FileSys := List (Str × Str)

/-- `os.path.exists` over the file-system model. -/
def existsF (fs : FileSys) (p : Str) : Bool := fs.any (fun e => e.1 = p)

/-- Model of `save_to_file` (lines 266-282): never overwrites — if the path
already exists the file system is returned unchanged. -/
def save_to_file (fs : FileSys) (p content : Str) : FileSys :=
  if existsF fs p then fs else fs ++ [(p, content)]

/-- Model of `save_to_html_file`'s write (lines 291-324), which opens the
file in write mode unconditionally: overwrite or create. -/
def write_file (fs : FileSys) (p content : Str) : FileSys :=
  if existsF fs p then fs.map (fun e => if e.1 = p then (p, content) else e)
  else fs ++ [(p, content)]

/-- Model of `get_filename_from_url` (lines 326-340): the final `/`-segment
of the URL plus the (dot-prefixed) file type. -/
def get_filename_from_url (url filetype : Str) : Str :=
  let ft := if begWith ['.'] filetype then filetype else '.' :: filetype
  (pySplitOn (str "/") url).getLastD [] ++ ft

/-- `os.path.join` for the two-component joins the scraper performs. -/
def pathJoin (dir name : Str) : Str := dir ++ '/' :: name

/-- The collaborators and configuration of one scraping run: the feed
snippet mapping and BeautifulSoup parser backing the premium pre-check,
whether that pre-check runs at all (`isinstance(self, SubstackScraper)`),
the transport `get_url_soup`, the html2text and markdown converters, the
current date, and the per-writer output directories. -/
structure ScrapeEnv where
  usesFeedCheck : Bool
  parse : Str → ParsedSnippet
  feed : Str → Option Str
  getSoup : Str → Option Soup
  h2m : Str → Str
  mdToHtml : Str → Str
  today : Today
  mdSaveDir : Str
  htmlSaveDir : Str

/-- The premium pre-check of lines 653-655. -/
def premiumCheck (env : ScrapeEnv) (url : Str) : Bool :=
  env.usesFeedCheck && is_article_premium_from_feed env.parse env.feed url

/-- The mutable state of `scrape_posts`' loop: the file system, the
accumulated `essays_data`, the counter `count` of newly persisted posts,
and the (never incremented) `processed_urls_count`. -/
structure ScrapeState where
  fs : FileSys
  essays : List Record
  count : Nat
  processedUrlsCount : Nat

/-- The markdown path `scrape_posts` computes for a URL. -/
def mdPathOf (env : ScrapeEnv) (url : Str) : Str :=
  pathJoin env.mdSaveDir (get_filename_from_url url (str ".md"))

/-- The HTML path `scrape_posts` computes for a URL. -/
def htmlPathOf (env : ScrapeEnv) (url : Str) : Str :=
  pathJoin env.htmlSaveDir (get_filename_from_url url (str ".html"))

/-- One iteration of the `scrape_posts` loop body (lines 645-693) for a
single URL: skip when the markdown file exists, skip on the premium feed
pre-check, skip when the transport yields no soup; otherwise extract,
persist markdown (no overwrite) and HTML (overwrite), and append the
record. -/
def scrapeStep (env : ScrapeEnv) (st : ScrapeState) (url : Str) : ScrapeState :=
  let md_filepath := mdPathOf env url
  let html_filepath := htmlPathOf env url
  if existsF st.fs md_filepath then st
  else if premiumCheck env url then st
  else
    match env.getSoup url with
    | none => st
    | some soup =>
      let e := extract_post_data env.h2m env.today soup
      let title := e.1
      let subtitle := e.2.1
      let like_count := e.2.2.1
      let date := e.2.2.2.1
      let md := e.2.2.2.2
      let fs1 := save_to_file st.fs md_filepath md
      let fs2 := write_file fs1 html_filepath (env.mdToHtml md)
      { st with
        fs := fs2
        essays := st.essays ++
          [{ title := some title, subtitle := some subtitle, like_count := some like_count,
             date := some date, file_link := some md_filepath, html_link := some html_filepath }]
        count := st.count + 1 }

/-- The `scrape_posts` loop (lines 640-698) with its two break conditions:
before each URL, break when `processed_urls_count` (never incremented)
reaches a non-zero cap; after each URL, break when `count` reaches a
non-zero cap.  The cap is an `int` in Python, hence `Int` here.  Returns
the final state and the list of URLs actually visited. -/
def scrapeLoop (env : ScrapeEnv) (numPosts : Int) :
    ScrapeState → List Str → ScrapeState × List Str
  | st, [] => (st, [])
  | st, url :: rest =>
    if numPosts ≠ 0 ∧ (st.processedUrlsCount : Int) ≥ numPosts then (st, [])
    else
      let st1 := scrapeStep env st url
      if numPosts ≠ 0 ∧ (st1.count : Int) ≥ numPosts then (st1, [url])
      else
        let r := scrapeLoop env numPosts st1 rest
        (r.1, url :: r.2)

/-- The world a run observes and mutates: the markdown/HTML file trees and
the writer's JSON dataset (`none` when the dataset file does not exist). -/
structure World where
  fs : FileSys
  dataset : Option (List Record)

/-- Model of `scrape_posts` (lines 623-714) up to dataset persistence: run
the loop over the resolved URLs, then merge the accumulated records into
the writer's dataset.  (The subsequent browsing-page and EPUB generation
read the persisted dataset and write distinct artifacts; the EPUB step is
modelled by `create_epub`.)  Returns the new world and the visited URLs. -/
def scrape_posts (env : ScrapeEnv) (numPosts : Int) (urls : List Str) (w : World) :
    World × List Str :=
  let r := scrapeLoop env numPosts ⟨w.fs, [], 0, 0⟩ urls
  ({ fs := r.1.fs, dataset := some (save_essays_data w.dataset r.1.essays) }, r.2)

/-! ## General lemmas about the string model -/

theorem begWith_append_self (pat rest : Str) : begWith pat (pat ++ rest) = true := by
  induction pat with
  | nil => rfl
  | cons p ps ih => simp [begWith, ih]

theorem begWith_append_of_le : ∀ (pat u v : Str), pat.length ≤ u.length →
    begWith pat (u ++ v) = begWith pat u
  | [], _, _, _ => rfl
  | p :: ps, [], v, h => by simp at h
  | p :: ps, a :: u2, v, h => by
    show (p == a && begWith ps (u2 ++ v)) = (p == a && begWith ps u2)
    rw [begWith_append_of_le ps u2 v (by simpa using h)]

theorem findSub_append_first (pat : Str) (hne : pat ≠ []) :
    ∀ (pre rest : Str),
      (∀ k, k < pre.length → begWith pat ((pre ++ pat).drop k) = false) →
      findSub (pre ++ pat ++ rest) pat = some pre.length := by
  intro pre
  induction pre with
  | nil =>
    intro rest _
    rcases pat with _ | ⟨c, cs⟩
    · exact absurd rfl hne
    · have hb : begWith (c :: cs) (c :: (cs ++ rest)) = true := by
        have := begWith_append_self (c :: cs) rest
        simpa using this
      show (if begWith (c :: cs) (c :: (cs ++ rest)) = true then some 0
            else (findSub (cs ++ rest) (c :: cs)).map (· + 1)) = some 0
      rw [hb]
      simp
  | cons a pre2 ih =>
    intro rest h
    have h0 : begWith pat (a :: ((pre2 ++ pat) ++ rest)) = false := by
      have hlen : pat.length ≤ (a :: (pre2 ++ pat)).length := by
        simp only [List.length_cons, List.length_append]
        omega
      have hbase : begWith pat (a :: (pre2 ++ pat)) = false := by
        have := h 0 (by simp)
        simpa using this
      have := begWith_append_of_le pat (a :: (pre2 ++ pat)) rest hlen
      simp only [List.cons_append] at this
      rw [this, hbase]
    have hrec : findSub ((pre2 ++ pat) ++ rest) pat = some pre2.length := by
      have := ih rest (fun k hk => by
        have hk2 := h (k + 1) (by simpa using Nat.succ_lt_succ hk)
        simpa using hk2)
      simpa using this
    show (if begWith pat (a :: ((pre2 ++ pat) ++ rest)) = true then some 0
          else (findSub ((pre2 ++ pat) ++ rest) pat).map (· + 1)) = some (pre2.length + 1)
    rw [h0, hrec]
    simp

theorem findSub_char (c : Char) :
    ∀ (a rest : Str), (∀ x ∈ a, x ≠ c) → findSub (a ++ c :: rest) [c] = some a.length := by
  intro a
  induction a with
  | nil =>
    intro rest _
    show (if begWith [c] (c :: rest) = true then some 0
          else (findSub rest [c]).map (· + 1)) = some 0
    simp [begWith]
  | cons x a2 ih =>
    intro rest h
    have hx : (c == x) = false := beq_eq_false_iff_ne.mpr (fun he => h x (by simp) he.symm)
    have hb : begWith [c] (x :: (a2 ++ c :: rest)) = false := by simp [begWith, hx]
    show (if begWith [c] (x :: (a2 ++ c :: rest)) = true then some 0
          else (findSub (a2 ++ c :: rest) [c]).map (· + 1)) = some (a2.length + 1)
    rw [hb, ih rest (fun z hz => h z (by simp [hz]))]
    simp

theorem dropWhile_eq_self_of (p : Char → Bool) (s : Str) (h : ∀ c ∈ s, p c = false) :
    s.dropWhile p = s := by
  cases s with
  | nil => rfl
  | cons a t => simp [List.dropWhile, h a (by simp)]

theorem pyStrip_eq_self (s : Str) (h : ∀ c ∈ s, pyIsSpace c = false) : pyStrip s = s := by
  unfold pyStrip
  rw [dropWhile_eq_self_of pyIsSpace s h]
  rw [dropWhile_eq_self_of pyIsSpace s.reverse (fun c hc => h c (List.mem_reverse.mp hc))]
  exact List.reverse_reverse s

theorem replaceAllFuel_no_head (p0 : Char) (pr rep : Str) :
    ∀ (n : Nat) (s : Str), (∀ c ∈ s, c ≠ p0) → replaceAllFuel n (p0 :: pr) rep s = s := by
  intro n
  induction n with
  | zero => intro s _; rfl
  | succ n ih =>
    intro s h
    cases s with
    | nil => rfl
    | cons c rest =>
      have hc : (p0 == c) = false := beq_eq_false_iff_ne.mpr (fun he => h c (by simp) he.symm)
      have hb : begWith (p0 :: pr) (c :: rest) = false := by simp [begWith, hc]
      show (if begWith (p0 :: pr) (c :: rest) = true then
              rep ++ replaceAllFuel n (p0 :: pr) rep ((c :: rest).drop (p0 :: pr).length)
            else c :: replaceAllFuel n (p0 :: pr) rep rest) = c :: rest
      rw [hb, ih rest (fun z hz => h z (by simp [hz]))]
      simp

theorem replaceAll_no_head (p0 : Char) (pr rep s : Str) (h : ∀ c ∈ s, c ≠ p0) :
    replaceAll (p0 :: pr) rep s = s := by
  unfold replaceAll
  rw [if_neg (by simp)]
  exact replaceAllFuel_no_head p0 pr rep s.length s h

theorem containsSub_no_head (p0 : Char) (pr : Str) :
    ∀ (s : Str), (∀ c ∈ s, c ≠ p0) → containsSub s (p0 :: pr) = false := by
  intro s
  induction s with
  | nil => intro _; rfl
  | cons c rest ih =>
    intro h
    have hc : (p0 == c) = false := beq_eq_false_iff_ne.mpr (fun he => h c (by simp) he.symm)
    simp only [containsSub, begWith, hc, Bool.false_and, Bool.false_or]
    exact ih (fun z hz => h z (by simp [hz]))

/-! ## Lemmas about the file-system model -/

theorem existsF_append_one (fs : FileSys) (p c : Str) : existsF (fs ++ [(p, c)]) p = true := by
  unfold existsF
  rw [List.any_append]
  simp

theorem existsF_save_self (fs : FileSys) (p c : Str) : existsF (save_to_file fs p c) p = true := by
  unfold save_to_file
  by_cases h : existsF fs p = true
  · rw [if_pos h]; exact h
  · rw [if_neg h]; exact existsF_append_one fs p c

theorem existsF_map_write (fs : FileSys) (q c p : Str) :
    existsF (fs.map (fun e => if e.1 = q then (q, c) else e)) p = existsF fs p := by
  induction fs with
  | nil => rfl
  | cons e t ih =>
    simp only [List.map_cons, existsF, List.any_cons] at ih ⊢
    by_cases he : e.1 = q
    · simp [he, ih]
    · simp [he, ih]

theorem existsF_write_of (fs : FileSys) (q c p : Str) (h : existsF fs p = true) :
    existsF (write_file fs q c) p = true := by
  unfold write_file
  by_cases hq : existsF fs q = true
  · rw [if_pos hq, existsF_map_write]; exact h
  · rw [if_neg hq]
    unfold existsF at h ⊢
    rw [List.any_append, h]
    rfl

theorem existsF_save_of (fs : FileSys) (q c p : Str) (h : existsF fs p = true) :
    existsF (save_to_file fs q c) p = true := by
  unfold save_to_file
  by_cases hq : existsF fs q = true
  · rw [if_pos hq]; exact h
  · rw [if_neg hq]
    unfold existsF at h ⊢
    rw [List.any_append, h]
    rfl

/-! ## C6: Post Extractor totality and defaults -/

/-- C6: extraction is total (never raises on a missing element) and
substitutes the documented per-field default: title `"Title not found"`
when no title element matches, empty subtitle when absent, the sentinel
date (`"Unknown Date"` after normalisation) when the date element is
absent, like count equal to the element text exactly when that text is all
digits and `"0"` otherwise (`"12"` gives `"12"`, `"N/A"` gives `"0"`,
absence gives `"0"`), and the placeholder paragraph as body when the
content container is absent. -/
theorem extract_post_data_defaults :
    (∀ (h2m : Str → Str) (t : Today) (su da li co : Option Str),
      (extract_post_data h2m t ⟨none, su, da, li, co⟩).1 = str "Title not found") ∧
    (∀ (h2m : Str → Str) (t : Today) (ti da li co : Option Str),
      (extract_post_data h2m t ⟨ti, none, da, li, co⟩).2.1 = []) ∧
    (∀ (h2m : Str → Str) (t : Today) (ti su li co : Option Str),
      (extract_post_data h2m t ⟨ti, su, none, li, co⟩).2.2.2.1 = str "Unknown Date") ∧
    (∀ (h2m : Str → Str) (t : Today) (ti su da co : Option Str),
      (extract_post_data h2m t ⟨ti, su, da, some (str "12"), co⟩).2.2.1 = str "12") ∧
    (∀ (h2m : Str → Str) (t : Today) (ti su da co : Option Str),
      (extract_post_data h2m t ⟨ti, su, da, some (str "N/A"), co⟩).2.2.1 = str "0") ∧
    (∀ (h2m : Str → Str) (t : Today) (ti su da co : Option Str),
      (extract_post_data h2m t ⟨ti, su, da, none, co⟩).2.2.1 = str "0") ∧
    (∀ (h2m : Str → Str) (t : Today) (ti su da li : Option Str),
      ∃ title subtitle like date,
        extract_post_data h2m t ⟨ti, su, da, li, none⟩ =
          (title, subtitle, like, date,
            combine_metadata_and_content title subtitle date like
              (h2m (str "<p>Content not found</p>")))) :=
  ⟨fun _ _ _ _ _ _ => rfl,
   fun _ _ _ _ _ _ => rfl,
   fun _ _ _ _ _ _ => rfl,
   fun _ _ _ _ _ _ => rfl,
   fun _ _ _ _ _ _ => rfl,
   fun _ _ _ _ _ _ => rfl,
   fun _ _ _ _ _ _ => ⟨_, _, _, _, rfl⟩⟩

/-! ## C8 and C10: Premium Classifier -/

/-- C8: a feed snippet whose extracted plain text contains a configured
paywall phrase (case-insensitive substring) classifies as premium; a
snippet containing neither a paywall phrase nor a subscribe
call-to-action anchor whose metadata description carries a paywall phrase
classifies as not premium. -/
theorem premium_classifier_decisions :
    (∀ (parse : Str → ParsedSnippet) (feed : Str → Option Str) (url s : Str),
      feed url = some s → s ≠ [] →
      (∃ t ∈ paidSubscriberTexts, containsSub (pyLower (parse s).text) (pyLower t) = true) →
      is_article_premium_from_feed parse feed url = true) ∧
    (∀ (parse : Str → ParsedSnippet) (feed : Str → Option Str) (url s : Str),
      feed url = some s →
      (∀ t ∈ paidSubscriberTexts, containsSub (pyLower (parse s).text) (pyLower t) = false) →
      (∀ btn, (parse s).subscribeButton = some btn →
        ¬(containsSub (pyLower btn) (str "subscribe") = true ∧
          (containsSub (pyLower ((parse s).ogDescription.getD [])) (str "only for subscribers") = true ∨
           containsSub (pyLower ((parse s).ogDescription.getD [])) (str "paid post") = true))) →
      is_article_premium_from_feed parse feed url = false) := by
  constructor
  · intro parse feed url s hfeed hne hphrase
    have hany : (paidSubscriberTexts.any fun t =>
        containsSub (pyLower (parse s).text) (pyLower t)) = true := by
      simpa [List.any_eq_true] using hphrase
    simp [is_article_premium_from_feed, hfeed, hany, List.isEmpty_iff, hne]
  · intro parse feed url s hfeed hphrase hbtn
    have hany : (paidSubscriberTexts.any fun t =>
        containsSub (pyLower (parse s).text) (pyLower t)) = false := by
      rw [List.any_eq_false]
      intro t ht
      simp [hphrase t ht]
    by_cases hs : s.isEmpty = true
    · simp [is_article_premium_from_feed, hfeed, hs]
    · rcases hsub : (parse s).subscribeButton with _ | btn
      · simp [is_article_premium_from_feed, hfeed, hs, hany, hsub]
      · have hcond : (containsSub (pyLower btn) (str "subscribe") &&
            (containsSub (pyLower ((parse s).ogDescription.getD [])) (str "only for subscribers") ||
             containsSub (pyLower ((parse s).ogDescription.getD [])) (str "paid post"))) = false := by
          by_contra hcc
          rw [Bool.not_eq_false, Bool.and_eq_true, Bool.or_eq_true] at hcc
          exact hbtn btn hsub hcc
        simp [is_article_premium_from_feed, hfeed, hs, hany, hsub, hcond]

/-- C10 (implicit): a URL absent from the feed-snippet mapping, or mapped
to an empty snippet, is never classified premium by the feed check, so in
the scrape loop such a post proceeds to the fetch/extract path and its
markdown file is persisted. -/
theorem premium_feed_absent_not_skipped :
    (∀ (parse : Str → ParsedSnippet) (feed : Str → Option Str) (url : Str),
      feed url = none → is_article_premium_from_feed parse feed url = false) ∧
    (∀ (parse : Str → ParsedSnippet) (feed : Str → Option Str) (url : Str),
      feed url = some [] → is_article_premium_from_feed parse feed url = false) ∧
    (∀ (env : ScrapeEnv) (st : ScrapeState) (url : Str) (soup : Soup),
      (env.feed url = none ∨ env.feed url = some []) →
      existsF st.fs (mdPathOf env url) = false →
      env.getSoup url = some soup →
      existsF (scrapeStep env st url).fs (mdPathOf env url) = true) := by
  refine ⟨?_, ?_, ?_⟩
  · intro parse feed url h
    unfold is_article_premium_from_feed
    rw [h]
  · intro parse feed url h
    unfold is_article_premium_from_feed
    rw [h]
    rfl
  · intro env st url soup hfeed hex hsoup
    have hprem : premiumCheck env url = false := by
      unfold premiumCheck
      have : is_article_premium_from_feed env.parse env.feed url = false := by
        unfold is_article_premium_from_feed
        rcases hfeed with h | h
        · rw [h]
        · rw [h]; rfl
      simp [this]
    simp only [scrapeStep, hex, hprem, hsoup, Bool.false_eq_true, if_false]
    exact existsF_write_of _ _ _ _ (existsF_save_self st.fs (mdPathOf env url) _)

/-- Witness for `premium_classifier_decisions` at concrete snippets. -/
theorem premium_classifier_decisions_witness :
    is_article_premium_from_feed
      (fun _ => ⟨str "Hi. This post is for paid subscribers already.", none, none⟩)
      (fun _ => some (str "<p>x</p>")) (str "u") = true ∧
    is_article_premium_from_feed
      (fun _ => ⟨str "an entirely free post", none, none⟩)
      (fun _ => some (str "<p>x</p>")) (str "u") = false :=
  ⟨premium_classifier_decisions.1 _ _ _ _ rfl (by decide)
     ⟨str "this post is for paid subscribers", by decide, by decide⟩,
   premium_classifier_decisions.2 _ _ _ _ rfl (by decide) (fun btn hb => nomatch hb)⟩

/-- A concrete scraping environment exercising the feed-absent path. -/
def envFeedless : ScrapeEnv :=
  { usesFeedCheck := true
    parse := fun _ => ⟨[], none, none⟩
    feed := fun _ => none
    getSoup := fun _ => some ⟨none, none, none, none, none⟩
    h2m := id
    mdToHtml := id
    today := ⟨2026, 10, 12⟩
    mdSaveDir := str "md"
    htmlSaveDir := str "ht" }

/-- Witness for `premium_feed_absent_not_skipped` at a concrete
environment with no feed data. -/
theorem premium_feed_absent_not_skipped_witness :
    is_article_premium_from_feed (fun _ => ⟨[], none, none⟩) (fun _ => none) (str "u") = false ∧
    existsF (scrapeStep envFeedless ⟨[], [], 0, 0⟩ (str "s/a")).fs
      (mdPathOf envFeedless (str "s/a")) = true :=
  ⟨premium_feed_absent_not_skipped.1 _ _ _ rfl,
   premium_feed_absent_not_skipped.2.2 envFeedless ⟨[], [], 0, 0⟩ (str "s/a")
     ⟨none, none, none, none, none⟩ (Or.inl rfl) (by decide) rfl⟩

/-! ## C2: URL Resolver merge policy -/

theorem foldl_dedup_append :
    ∀ (F S : List Str), F.Nodup →
      F.foldl (fun acc url => if acc.contains url then acc else acc ++ [url]) S
        = S ++ F.filter (fun u => !S.contains u) := by
  intro F
  induction F with
  | nil => intro S _; simp
  | cons f F2 ih =>
    intro S hnd
    rcases List.nodup_cons.mp hnd with ⟨hf, hnd2⟩
    simp only [List.foldl_cons]
    by_cases hc : S.contains f = true
    · rw [if_pos hc, ih S hnd2]
      have hmem : f ∈ S := by
        rw [List.contains, List.elem_eq_mem] at hc
        exact of_decide_eq_true hc
      simp only [List.filter_cons]
      simp [hmem]
    · rw [if_neg hc, ih (S ++ [f]) hnd2]
      have hfilter : F2.filter (fun u => !(S ++ [f]).contains u)
          = F2.filter (fun u => !S.contains u) := by
        apply List.filter_congr
        intro x hx
        have hxf : x ≠ f := fun he => hf (he ▸ hx)
        simp only [List.contains, List.elem_eq_mem, List.mem_append, List.mem_singleton]
        simp [hxf]
      rw [hfilter]
      have hnm : f ∉ S := fun hm => hc (by
        rw [List.contains, List.elem_eq_mem]
        exact decide_eq_true hm)
      simp only [List.filter_cons]
      simp [hnm, List.append_assoc]

/-- C2: the URL Resolver's merge policy — with a non-empty sitemap the
result is the sitemap URLs followed by the feed URLs not already present,
keyword-filtered; with an empty sitemap and a non-empty feed, the
keyword-filtered feed URLs; with both empty, the empty list; the filter
keeps exactly the URLs containing none of `about`, `archive`, `podcast`;
and on the spec's example (sitemap `[A, B]`, feed `[B, C]`) the resolved
order is `[A, B, C]`. -/
theorem url_resolver_merge :
    (∀ (kw S F : List Str), S ≠ [] → F.Nodup →
      get_all_post_urls kw S F = filter_urls (S ++ F.filter (fun u => !S.contains u)) kw) ∧
    (∀ (kw F : List Str), F ≠ [] → get_all_post_urls kw [] F = filter_urls F kw) ∧
    (∀ kw : List Str, get_all_post_urls kw [] [] = []) ∧
    (∀ (urls : List Str) (u : Str), u ∈ filter_urls urls defaultKeywords ↔
      u ∈ urls ∧ containsSub u (str "about") = false ∧
        containsSub u (str "archive") = false ∧ containsSub u (str "podcast") = false) ∧
    (get_all_post_urls defaultKeywords
        [str "https://x.com/p/a", str "https://x.com/p/b"]
        [str "https://x.com/p/b", str "https://x.com/p/c"]
      = [str "https://x.com/p/a", str "https://x.com/p/b", str "https://x.com/p/c"]) := by
  refine ⟨?_, ?_, ?_, ?_, ?_⟩
  · intro kw S F hS hF
    unfold get_all_post_urls
    rw [if_neg (by simpa [List.isEmpty_iff] using hS)]
    rw [foldl_dedup_append F S hF]
  · intro kw F hF
    have h1 : get_all_post_urls kw [] F =
        if F.isEmpty = true then [] else filter_urls F kw := rfl
    rw [h1, if_neg (by simpa [List.isEmpty_iff] using hF)]
  · intro kw
    rfl
  · intro urls u
    unfold filter_urls defaultKeywords
    rw [List.mem_filter]
    simp [List.all_cons]
  · decide

/-- Witness for `url_resolver_merge` at the spec's example sources. -/
theorem url_resolver_merge_witness :
    get_all_post_urls defaultKeywords
        [str "https://x.com/p/a", str "https://x.com/p/b"]
        [str "https://x.com/p/b", str "https://x.com/p/c"]
      = filter_urls ([str "https://x.com/p/a", str "https://x.com/p/b"] ++
          [str "https://x.com/p/b", str "https://x.com/p/c"].filter
            (fun u => !([str "https://x.com/p/a", str "https://x.com/p/b"]).contains u))
          defaultKeywords ∧
    get_all_post_urls defaultKeywords [] [str "https://x.com/p/c"]
      = filter_urls [str "https://x.com/p/c"] defaultKeywords :=
  ⟨url_resolver_merge.1 defaultKeywords _ _ (by decide) (by decide),
   url_resolver_merge.2.1 defaultKeywords _ (by decide)⟩

/-! ## Order lemmas for the Archive Assembler sort key -/

theorem char_eq_of_toNat_eq {a b : Char} (h : a.toNat = b.toNat) : a = b :=
  Char.eq_of_val_eq (UInt32.eq_of_val_eq (Fin.eq_of_val_eq h))

theorem strLt_cons_iff (a b : Char) (as2 bs : Str) :
    strLt (a :: as2) (b :: bs) = true ↔
      a.toNat < b.toNat ∨ (a = b ∧ strLt as2 bs = true) := by
  simp [strLt]

theorem strLt_irrefl : ∀ s : Str, strLt s s = false
  | [] => rfl
  | a :: as2 => by
    simp [strLt, strLt_irrefl as2]

theorem strLt_trans : ∀ {a b c : Str},
    strLt a b = true → strLt b c = true → strLt a c = true
  | [], [], _, h1, _ => by simp [strLt] at h1
  | [], _ :: _, [], _, h2 => by simp [strLt] at h2
  | [], _ :: _, _ :: _, _, _ => rfl
  | _ :: _, [], _, h1, _ => by simp [strLt] at h1
  | _ :: _, _ :: _, [], _, h2 => by simp [strLt] at h2
  | x :: xs, y :: ys, z :: zs, h1, h2 => by
    rw [strLt_cons_iff] at h1 h2 ⊢
    rcases h1 with h1 | ⟨rfl, h1⟩
    · rcases h2 with h2 | ⟨rfl, h2⟩
      · exact Or.inl (Nat.lt_trans h1 h2)
      · exact Or.inl h1
    · rcases h2 with h2 | ⟨rfl, h2⟩
      · exact Or.inl h2
      · exact Or.inr ⟨rfl, strLt_trans h1 h2⟩

theorem strLt_asymm {a b : Str} (h : strLt a b = true) : strLt b a = false := by
  by_contra hc
  rw [Bool.not_eq_false] at hc
  have := strLt_trans h hc
  rw [strLt_irrefl] at this
  exact absurd this (by simp)

theorem strLt_connex : ∀ a b : Str, strLt a b = true ∨ a = b ∨ strLt b a = true
  | [], [] => Or.inr (Or.inl rfl)
  | [], _ :: _ => Or.inl rfl
  | _ :: _, [] => Or.inr (Or.inr rfl)
  | x :: xs, y :: ys => by
    rcases Nat.lt_trichotomy x.toNat y.toNat with h | h | h
    · exact Or.inl ((strLt_cons_iff _ _ _ _).mpr (Or.inl h))
    · have hxy : x = y := char_eq_of_toNat_eq h
      subst hxy
      rcases strLt_connex xs ys with h2 | h2 | h2
      · exact Or.inl ((strLt_cons_iff _ _ _ _).mpr (Or.inr ⟨rfl, h2⟩))
      · exact Or.inr (Or.inl (by rw [h2]))
      · exact Or.inr (Or.inr ((strLt_cons_iff _ _ _ _).mpr (Or.inr ⟨rfl, h2⟩)))
    · exact Or.inr (Or.inr ((strLt_cons_iff _ _ _ _).mpr (Or.inl h)))

instance : IsTrans Record keyLe := by
  constructor
  intro a b c hab hbc
  rcases hab with hab | ⟨hab, hab2⟩
  · rcases hbc with hbc | ⟨hbc, _⟩
    · exact Or.inl (strLt_trans hab hbc)
    · exact Or.inl (hbc ▸ hab)
  · rcases hbc with hbc | ⟨hbc, hbc2⟩
    · exact Or.inl (hab ▸ hbc)
    · refine Or.inr ⟨hab.trans hbc, ?_⟩
      by_contra hc
      rw [Bool.not_eq_false] at hc
      rcases strLt_connex (b.title.getD []) (a.title.getD []) with h | h | h
      · exact absurd h (by rw [hab2]; simp)
      · rw [← h] at hc
        exact absurd hc (by rw [hbc2]; simp)
      · have := strLt_trans hc h
        exact absurd this (by rw [hbc2]; simp)

instance : IsTotal Record keyLe := by
  constructor
  intro a b
  rcases strLt_connex (a.date.getD []) (b.date.getD []) with h | h | h
  · exact Or.inl (Or.inl h)
  · by_cases ht : strLt (b.title.getD []) (a.title.getD []) = true
    · exact Or.inr (Or.inr ⟨h.symm, strLt_asymm ht⟩)
    · exact Or.inl (Or.inr ⟨h, Bool.not_eq_true _ ▸ ht⟩)
  · exact Or.inr (Or.inl h)

/-! ## C7: Archive Assembler ordering -/

/-- The spec example's three records: dates 2023-01-02, 2023-01-01,
2023-01-01 with the tied pair titled B and A. -/
def recExC : Record :=
  ⟨some (str "C"), none, some (str "0"), some (str "2023-01-02"), some (str "c.md"), none⟩

def recExB : Record :=
  ⟨some (str "B"), none, some (str "0"), some (str "2023-01-01"), some (str "b.md"), none⟩

def recExA : Record :=
  ⟨some (str "A"), none, some (str "0"), some (str "2023-01-01"), some (str "a.md"), none⟩

/-- C7: records with sentinel or unparseable dates are excluded from the
archive, and (when every surviving record's markdown file exists) the
chapters are exactly the date-valid records sorted by (date, title)
ascending, the spine's chapter order being that sort order; on the spec's
example the chapter order is A (2023-01-01), B (2023-01-01), then the
2023-01-02 record. -/
theorem archive_chapter_ordering :
    (∀ (fe : Str → Bool) (posts out : List Record),
      posts ≠ [] →
      (∀ p ∈ validPosts posts, chapterFileOk fe p = true) →
      create_epub fe (some posts) = some out →
      List.Pairwise keyLe out ∧ out.Perm (validPosts posts) ∧
        ∀ p ∈ out, validDate p = true) ∧
    create_epub (fun _ => true) (some [recExC, recExB, recExA])
      = some [recExA, recExB, recExC] := by
  constructor
  · intro fe posts out hne hfe hcreate
    have h1 : create_epub fe (some posts) =
        if posts.isEmpty = true then none
        else some ((List.insertionSort keyLe (validPosts posts)).filter (chapterFileOk fe)) := rfl
    rw [h1, if_neg (by simpa [List.isEmpty_iff] using hne)] at hcreate
    have hfe2 : ∀ p ∈ List.insertionSort keyLe (validPosts posts),
        chapterFileOk fe p = true :=
      fun p hp => hfe p ((List.mem_insertionSort keyLe).mp hp)
    have hout : out = List.insertionSort keyLe (validPosts posts) := by
      have := Option.some.inj hcreate
      rw [← this, List.filter_eq_self.mpr hfe2]
    refine ⟨?_, ?_, ?_⟩
    · rw [hout]
      exact List.sorted_insertionSort keyLe (validPosts posts)
    · rw [hout]
      exact List.perm_insertionSort keyLe (validPosts posts)
    · intro p hp
      rw [hout] at hp
      have hv := (List.mem_insertionSort keyLe).mp hp
      exact (List.mem_filter.mp hv).2
  · decide

/-- Witness for `archive_chapter_ordering` at the spec's example records. -/
theorem archive_chapter_ordering_witness :
    List.Pairwise keyLe [recExA, recExB, recExC] ∧
      ([recExA, recExB, recExC] : List Record).Perm
        (validPosts [recExC, recExB, recExA]) ∧
      ∀ p ∈ ([recExA, recExB, recExC] : List Record), validDate p = true :=
  archive_chapter_ordering.1 (fun _ => true) [recExC, recExB, recExA] [recExA, recExB, recExC]
    (by decide) (by decide) archive_chapter_ordering.2

/-! ## C3: markdown round-trip with the Archive Assembler -/

theorem pyLStrip_cons_space (c : Char) (s : Str) (h : pyIsSpace c = true) :
    pyLStrip (c :: s) = pyLStrip s := by
  simp [pyLStrip, List.dropWhile_cons, h]

theorem combine_decomp (title subtitle date like content : Str) :
    combine_metadata_and_content title subtitle date like content
      = headerBeforeLikes title subtitle date ++ metadataMarker ++
          (' ' :: (like ++ '\n' :: ('\n' :: content))) := by
  unfold combine_metadata_and_content headerBeforeLikes
  rw [show str "**Likes:** " = metadataMarker ++ [' '] from rfl]
  rw [show str "\n\n" = ['\n', '\n'] from rfl]
  simp [List.append_assoc]

/-- C3 (amended): the assembled document is exactly H1 title, blank line,
optional H2 subtitle, bold date line, bold Likes line, blank line, body;
and the Archive Assembler's header-stripping step recovers the body up to
removal of its leading whitespace — exactly the body when the body does
not begin with whitespace — provided the header before the Likes line
contains no earlier occurrence of the `**Likes:**` marker and the like
count contains no newline. -/
theorem markdown_roundtrip :
    (∀ title subtitle date like content : Str,
      combine_metadata_and_content title subtitle date like content
        = headerBeforeLikes title subtitle date ++ str "**Likes:** " ++ like ++
            str "\n\n" ++ content) ∧
    (∀ title subtitle date like content : Str,
      (∀ k, k < (headerBeforeLikes title subtitle date).length →
        begWith metadataMarker
          ((headerBeforeLikes title subtitle date ++ metadataMarker).drop k) = false) →
      (∀ x ∈ like, x ≠ '\n') →
      strip_metadata_header (combine_metadata_and_content title subtitle date like content)
        = pyLStrip content) ∧
    (∀ title subtitle date like content : Str,
      (∀ k, k < (headerBeforeLikes title subtitle date).length →
        begWith metadataMarker
          ((headerBeforeLikes title subtitle date ++ metadataMarker).drop k) = false) →
      (∀ x ∈ like, x ≠ '\n') →
      pyLStrip content = content →
      strip_metadata_header (combine_metadata_and_content title subtitle date like content)
        = content) := by
  have main : ∀ title subtitle date like content : Str,
      (∀ k, k < (headerBeforeLikes title subtitle date).length →
        begWith metadataMarker
          ((headerBeforeLikes title subtitle date ++ metadataMarker).drop k) = false) →
      (∀ x ∈ like, x ≠ '\n') →
      strip_metadata_header (combine_metadata_and_content title subtitle date like content)
        = pyLStrip content := by
    intro title subtitle date like content hpre hlike
    rw [combine_decomp]
    have hfind : findSub (headerBeforeLikes title subtitle date ++ metadataMarker ++
          (' ' :: (like ++ '\n' :: ('\n' :: content)))) metadataMarker
        = some (headerBeforeLikes title subtitle date).length :=
      findSub_append_first metadataMarker (by decide) _ _ hpre
    have hdrop1 : (headerBeforeLikes title subtitle date ++ metadataMarker ++
          (' ' :: (like ++ '\n' :: ('\n' :: content)))).drop
          ((headerBeforeLikes title subtitle date).length + metadataMarker.length)
        = ' ' :: (like ++ '\n' :: ('\n' :: content)) := by
      rw [show (headerBeforeLikes title subtitle date).length + metadataMarker.length
        = (headerBeforeLikes title subtitle date ++ metadataMarker).length from
        (List.length_append _ _).symm]
      exact List.drop_left _ _
    have hfind2 : findSubFrom (headerBeforeLikes title subtitle date ++ metadataMarker ++
          (' ' :: (like ++ '\n' :: ('\n' :: content)))) (str "\n")
          ((headerBeforeLikes title subtitle date).length + metadataMarker.length)
        = some (like.length + 1 +
            ((headerBeforeLikes title subtitle date).length + metadataMarker.length)) := by
      unfold findSubFrom
      rw [hdrop1]
      rw [show (' ' :: (like ++ '\n' :: ('\n' :: content)))
        = (' ' :: like) ++ '\n' :: ('\n' :: content) from rfl]
      rw [show str "\n" = ['\n'] from rfl]
      rw [findSub_char '\n' (' ' :: like) ('\n' :: content) (by
        intro x hx
        rcases List.mem_cons.mp hx with rfl | hx2
        · decide
        · exact hlike x hx2)]
      simp
    have hdrop2 : (headerBeforeLikes title subtitle date ++ metadataMarker ++
          (' ' :: (like ++ '\n' :: ('\n' :: content)))).drop
          (like.length + 1 +
            ((headerBeforeLikes title subtitle date).length + metadataMarker.length) + 1)
        = '\n' :: content := by
      have hA : headerBeforeLikes title subtitle date ++ metadataMarker ++
          (' ' :: (like ++ '\n' :: ('\n' :: content)))
          = (headerBeforeLikes title subtitle date ++ metadataMarker ++
              ((' ' :: like) ++ ['\n'])) ++ ('\n' :: content) := by
        simp [List.append_assoc]
      rw [hA]
      rw [show like.length + 1 +
          ((headerBeforeLikes title subtitle date).length + metadataMarker.length) + 1
        = (headerBeforeLikes title subtitle date ++ metadataMarker ++
            ((' ' :: like) ++ ['\n'])).length from by
        simp [List.length_append]
        omega]
      exact List.drop_left _ _
    simp only [strip_metadata_header, hfind, hfind2, hdrop2]
    exact pyLStrip_cons_space '\n' content (by decide)
  refine ⟨?_, main, ?_⟩
  · intro title subtitle date like content
    rw [combine_decomp]
    rw [show str "**Likes:** " = metadataMarker ++ [' '] from rfl]
    rw [show str "\n\n" = ['\n', '\n'] from rfl]
    simp [List.append_assoc]
  · intro title subtitle date like content hpre hlike hcontent
    rw [main title subtitle date like content hpre hlike, hcontent]

/-- C3 counterexample: a body beginning with whitespace is not recovered
exactly — the stripped result loses the leading space. -/
theorem markdown_roundtrip_counterexample :
    strip_metadata_header
        (combine_metadata_and_content (str "T") [] (str "2023-01-01") (str "0") (str " x"))
      = str "x" ∧ str "x" ≠ str " x" :=
  ⟨by decide, by decide⟩

/-- Witness for `markdown_roundtrip` at a concrete document. -/
theorem markdown_roundtrip_witness :
    strip_metadata_header
        (combine_metadata_and_content (str "T") [] (str "2023-01-01") (str "5") (str "body"))
      = str "body" :=
  markdown_roundtrip.2.2 (str "T") [] (str "2023-01-01") (str "5") (str "body")
    (by decide) (by decide) (by decide)

/-! ## C9: empty-archive behavior -/

/-- C9 (amended): a non-empty dataset none of whose records passes the
date filter still yields a written archive with an empty chapter list;
an entirely empty dataset, however, makes `create_epub` return early
without writing a file. -/
theorem empty_archive_writes_empty :
    ∀ (fe : Str → Bool) (posts : List Record), posts ≠ [] → validPosts posts = [] →
      create_epub fe (some posts) = some [] := by
  intro fe posts hne hv
  have h1 : create_epub fe (some posts) =
      if posts.isEmpty = true then none
      else some ((List.insertionSort keyLe (validPosts posts)).filter (chapterFileOk fe)) := rfl
  rw [h1, if_neg (by simpa [List.isEmpty_iff] using hne), hv]
  rfl

/-- C9 counterexample: the empty dataset has zero valid dated records,
yet no archive is produced for it (the assembler returns before writing). -/
theorem empty_archive_counterexample :
    validPosts [] = [] ∧ create_epub (fun _ => true) (some []) = none :=
  ⟨rfl, rfl⟩

/-- Witness for `empty_archive_writes_empty` at a one-record dataset with
a missing date. -/
theorem empty_archive_writes_empty_witness :
    create_epub (fun _ => true) (some [⟨some (str "T"), none, none, none, none, none⟩])
      = some [] :=
  empty_archive_writes_empty (fun _ => true) _ (by decide) (by decide)

/-! ## C5: Date Normalizer identity cases -/

theorem digitOfNat_isDigit : ∀ k : Nat, (digitOfNat k).isDigit = true
  | 0 | 1 | 2 | 3 | 4 | 5 | 6 | 7 | 8 => by decide
  | (n + 9) => by show ('9' : Char).isDigit = true; decide

theorem digitOfNat_in_charset : ∀ k : Nat, digitOfNat k ∈ str "0123456789-"
  | 0 | 1 | 2 | 3 | 4 | 5 | 6 | 7 | 8 => by decide
  | (n + 9) => by show ('9' : Char) ∈ str "0123456789-"; decide

theorem digitOfNat_toLower : ∀ k : Nat, (digitOfNat k).toLower = digitOfNat k
  | 0 | 1 | 2 | 3 | 4 | 5 | 6 | 7 | 8 => by decide
  | (n + 9) => by show ('9' : Char).toLower = '9'; decide

theorem toDigit_digitOfNat (k : Nat) (h : k ≤ 9) : toDigit (digitOfNat k) = some k := by
  interval_cases k <;> decide

theorem fmtYmd_chars (y m d : Nat) : ∀ c ∈ fmtYmd y m d, c ∈ str "0123456789-" := by
  intro c hc
  unfold fmtYmd pad4 pad2 at hc
  simp only [List.cons_append, List.nil_append, List.mem_cons, List.not_mem_nil,
    or_false] at hc
  rcases hc with rfl | rfl | rfl | rfl | rfl | rfl | rfl | rfl | rfl | rfl <;>
    first
      | exact digitOfNat_in_charset _
      | decide

theorem monthShortNum_digit_head (c1 x y : Char) (h : c1.isDigit = true) :
    monthShortNum [c1, x, y] = none := by
  have hd : ∀ (t : Str) (a : Char) (l : Str), t = a :: l → a.isDigit = false →
      ([c1, x, y] : Str) ≠ t := by
    rintro t a l rfl ha he
    injection he with h1 _
    rw [h1] at h
    rw [h] at ha
    simp at ha
  unfold monthShortNum
  rw [if_neg (hd (str "jan") 'j' (str "an") rfl (by decide)),
      if_neg (hd (str "feb") 'f' (str "eb") rfl (by decide)),
      if_neg (hd (str "mar") 'm' (str "ar") rfl (by decide)),
      if_neg (hd (str "apr") 'a' (str "pr") rfl (by decide)),
      if_neg (hd (str "may") 'm' (str "ay") rfl (by decide)),
      if_neg (hd (str "jun") 'j' (str "un") rfl (by decide)),
      if_neg (hd (str "jul") 'j' (str "ul") rfl (by decide)),
      if_neg (hd (str "aug") 'a' (str "ug") rfl (by decide)),
      if_neg (hd (str "sep") 's' (str "ep") rfl (by decide)),
      if_neg (hd (str "oct") 'o' (str "ct") rfl (by decide)),
      if_neg (hd (str "nov") 'n' (str "ov") rfl (by decide)),
      if_neg (hd (str "dec") 'd' (str "ec") rfl (by decide))]

theorem month3_digit (k : Nat) (c2 c3 : Char) (rest : Str) :
    month3 (digitOfNat k :: c2 :: c3 :: rest) = none := by
  show (monthShortNum [(digitOfNat k).toLower, c2.toLower, c3.toLower]).map
    (fun m => (m, rest)) = none
  rw [digitOfNat_toLower]
  rw [monthShortNum_digit_head _ _ _ (digitOfNat_isDigit k)]
  rfl

theorem pySplitAux_no_ws : ∀ (s acc : Str), (∀ c ∈ s, pyIsSpace c = false) →
    pySplitAux s acc =
      if (acc.reverse ++ s).isEmpty = true then [] else [acc.reverse ++ s] := by
  intro s
  induction s with
  | nil =>
    intro acc _
    cases acc <;> simp [pySplitAux]
  | cons c rest ih =>
    intro acc h
    have hc : pyIsSpace c = false := h c (by simp)
    simp only [pySplitAux, hc, Bool.false_eq_true, if_false]
    rw [ih (c :: acc) (fun z hz => h z (by simp [hz]))]
    have hrw : (c :: acc).reverse ++ rest = acc.reverse ++ c :: rest := by simp
    rw [hrw]

theorem pySplit_no_ws (s : Str) (h : ∀ c ∈ s, pyIsSpace c = false) (hne : s ≠ []) :
    pySplit s = [s] := by
  unfold pySplit
  rw [pySplitAux_no_ws s [] h]
  simp [List.isEmpty_iff, hne]

theorem normalizeInput_eq_self (s : Str) (hsp : ∀ c ∈ s, pyIsSpace c = false)
    (hnospace : ∀ c ∈ s, c ≠ ' ') : normalizeInput s = s := by
  unfold normalizeInput unitReplacements
  rw [pyStrip_eq_self s hsp]
  rw [show str " hours" = ' ' :: str "hours" from rfl,
    replaceAll_no_head ' ' (str "hours") (str " hr") s hnospace]
  rw [show str " hour" = ' ' :: str "hour" from rfl,
    replaceAll_no_head ' ' (str "hour") (str " hr") s hnospace]
  rw [show str " days" = ' ' :: str "days" from rfl,
    replaceAll_no_head ' ' (str "days") (str " day") s hnospace]
  rw [show str " day" = ' ' :: str "day" from rfl,
    replaceAll_no_head ' ' (str "day") (' ' :: str "day") s hnospace]
  rw [show str " minutes" = ' ' :: str "minutes" from rfl,
    replaceAll_no_head ' ' (str "minutes") (str " min") s hnospace]
  rw [show str " minute" = ' ' :: str "minute" from rfl,
    replaceAll_no_head ' ' (str "minute") (str " min") s hnospace]

theorem parse4Y_pad4 (n : Nat) (r : Str) : parse4Y (pad4 n ++ r) = some (n % 10000, r) := by
  have h1 : toDigit (digitOfNat (n / 1000 % 10)) = some (n / 1000 % 10) :=
    toDigit_digitOfNat _ (by omega)
  have h2 : toDigit (digitOfNat (n / 100 % 10)) = some (n / 100 % 10) :=
    toDigit_digitOfNat _ (by omega)
  have h3 : toDigit (digitOfNat (n / 10 % 10)) = some (n / 10 % 10) :=
    toDigit_digitOfNat _ (by omega)
  have h4 : toDigit (digitOfNat (n % 10)) = some (n % 10) :=
    toDigit_digitOfNat _ (by omega)
  show parse4Y (digitOfNat (n / 1000 % 10) :: digitOfNat (n / 100 % 10) ::
      digitOfNat (n / 10 % 10) :: digitOfNat (n % 10) :: r) = some (n % 10000, r)
  simp only [parse4Y, h1, h2, h3, h4]
  rw [show ((n / 1000 % 10 * 10 + n / 100 % 10) * 10 + n / 10 % 10) * 10 + n % 10
    = n % 10000 from by omega]

theorem parseMonthRe_pad2 (m : Nat) (hm1 : 1 ≤ m) (hm2 : m ≤ 12) (r : Str) :
    parseMonthRe (pad2 m ++ r) = some (m, r) := by
  show parseMonthRe (digitOfNat (m / 10 % 10) :: digitOfNat (m % 10) :: r) = some (m, r)
  by_cases hm9 : m ≤ 9
  · rw [show m / 10 % 10 = 0 from by omega, show m % 10 = m from by omega]
    simp only [parseMonthRe, toDigit_digitOfNat 0 (by omega),
      toDigit_digitOfNat m (by omega)]
    rw [if_neg (by simp), if_pos (by simp [hm1])]
  · rw [show m / 10 % 10 = 1 from by omega, show m % 10 = m - 10 from by omega]
    simp only [parseMonthRe, toDigit_digitOfNat 1 (by omega),
      toDigit_digitOfNat (m - 10) (by omega)]
    rw [if_pos (by simp; omega)]
    rw [show 10 + (m - 10) = m from by omega]

theorem parseDayRe_pad2 (d : Nat) (hd1 : 1 ≤ d) (hd31 : d ≤ 31) :
    parseDayRe (pad2 d) = some (d, []) := by
  show parseDayRe (digitOfNat (d / 10 % 10) :: digitOfNat (d % 10) :: []) = some (d, [])
  by_cases h9 : d ≤ 9
  · rw [show d / 10 % 10 = 0 from by omega, show d % 10 = d from by omega]
    simp only [parseDayRe, toDigit_digitOfNat 0 (by omega),
      toDigit_digitOfNat d (by omega)]
    rw [if_neg (by simp), if_neg (by simp), if_pos (by simp [hd1])]
  · by_cases h29 : d ≤ 29
    · have he1 : d / 10 % 10 = d / 10 := by omega
      rw [he1]
      simp only [parseDayRe, toDigit_digitOfNat (d / 10) (by omega),
        toDigit_digitOfNat (d % 10) (by omega)]
      rw [if_neg (by simp; omega), if_pos (by simp; omega)]
      rw [show 10 * (d / 10) + d % 10 = d from by omega]
    · rw [show d / 10 % 10 = 3 from by omega, show d % 10 = d - 30 from by omega]
      simp only [parseDayRe, toDigit_digitOfNat 3 (by omega),
        toDigit_digitOfNat (d - 30) (by omega)]
      rw [if_pos (by simp; omega)]
      rw [show 30 + (d - 30) = d from by omega]

theorem daysInMonth_le_31 (y m : Nat) : daysInMonth y m ≤ 31 := by
  unfold daysInMonth
  split
  · split <;> omega
  · split <;> omega

theorem parse_Ymd_fmt (y m d : Nat) (hy1 : 1 ≤ y) (hy2 : y ≤ 9999) (hm1 : 1 ≤ m)
    (hm2 : m ≤ 12) (hd1 : 1 ≤ d) (hd2 : d ≤ daysInMonth y m) :
    parse_Ymd (fmtYmd y m d) = some (y, m, d) := by
  have h31 : d ≤ 31 := le_trans hd2 (daysInMonth_le_31 y m)
  simp only [parse_Ymd, fmtYmd, parse4Y_pad4, show y % 10000 = y from by omega]
  simp only [show expectChar '-' ('-' :: (pad2 m ++ '-' :: pad2 d))
    = some (pad2 m ++ '-' :: pad2 d) from rfl]
  simp only [parseMonthRe_pad2 m hm1 hm2 ('-' :: pad2 d)]
  simp only [show expectChar '-' ('-' :: pad2 d) = some (pad2 d) from rfl]
  simp only [parseDayRe_pad2 d hd1 h31]
  rw [if_pos (by simp [hy1, hd1, hd2])]

theorem fmt_eval_Ymd (t : Today) (s : Str) (y m d : Nat)
    (hne : s ≠ str "Date not found")
    (hnorm : normalizeInput s = s)
    (hbdY : parse_bdY s = none)
    (hat2 : attempt2 s = none)
    (hmark : hasRecencyMarker s = false)
    (hbdY2 : parse_bdY (s ++ str ", " ++ (Nat.repr t.y).toList) = none)
    (hYmd : parse_Ymd s = some (y, m, d)) :
    format_substack_date t s = fmtYmd y m d := by
  simp only [format_substack_date, eq_false hne, if_false, hnorm, hbdY, hat2, hmark,
    hbdY2, hYmd, Bool.false_eq_true]

theorem fmt_canonical (t : Today) (y m d : Nat) (hy1 : 1 ≤ y) (hy2 : y ≤ 9999)
    (hm1 : 1 ≤ m) (hm2 : m ≤ 12) (hd1 : 1 ≤ d) (hd2 : d ≤ daysInMonth y m) :
    format_substack_date t (fmtYmd y m d) = fmtYmd y m d := by
  have hchars := fmtYmd_chars y m d
  have hallsp : ∀ x ∈ str "0123456789-", pyIsSpace x = false := by decide
  have hallspace : ∀ x ∈ str "0123456789-", x ≠ ' ' := by decide
  have hallcomma : ∀ x ∈ str "0123456789-", x ≠ ',' := by decide
  have halla : ∀ x ∈ str "0123456789-", x ≠ 'a' := by decide
  have hallh : ∀ x ∈ str "0123456789-", x ≠ 'h' := by decide
  have hallm : ∀ x ∈ str "0123456789-", x ≠ 'm' := by decide
  have hnorm : normalizeInput (fmtYmd y m d) = fmtYmd y m d :=
    normalizeInput_eq_self _ (fun c hc => hallsp c (hchars c hc))
      (fun c hc => hallspace c (hchars c hc))
  have hne : fmtYmd y m d ≠ str "Date not found" := by
    intro he
    have hlen := congrArg List.length he
    rw [show (str "Date not found").length = 14 from rfl] at hlen
    simp [fmtYmd, pad4, pad2] at hlen
  have hstruct : fmtYmd y m d = digitOfNat (y / 1000 % 10) :: digitOfNat (y / 100 % 10) ::
      digitOfNat (y / 10 % 10) ::
        (digitOfNat (y % 10) :: '-' :: (pad2 m ++ '-' :: pad2 d)) := rfl
  have hbdY : parse_bdY (fmtYmd y m d) = none := by
    rw [hstruct]
    unfold parse_bdY
    rw [month3_digit]
  have hbdY2 : parse_bdY (fmtYmd y m d ++ str ", " ++ (Nat.repr t.y).toList) = none := by
    have hs2 : fmtYmd y m d ++ str ", " ++ (Nat.repr t.y).toList
        = digitOfNat (y / 1000 % 10) :: digitOfNat (y / 100 % 10) ::
            digitOfNat (y / 10 % 10) ::
            (((digitOfNat (y % 10) :: '-' :: (pad2 m ++ '-' :: pad2 d)) ++ str ", ") ++
              (Nat.repr t.y).toList) := rfl
    rw [hs2]
    unfold parse_bdY
    rw [month3_digit]
  have hmark : hasRecencyMarker (fmtYmd y m d) = false := by
    unfold hasRecencyMarker
    rw [show str "ago" = 'a' :: str "go" from rfl,
        show str "hr" = 'h' :: str "r" from rfl,
        show str "min" = 'm' :: str "in" from rfl]
    rw [containsSub_no_head 'a' _ _ (fun c hc => halla c (hchars c hc)),
        containsSub_no_head 'h' _ _ (fun c hc => hallh c (hchars c hc)),
        containsSub_no_head 'm' _ _ (fun c hc => hallm c (hchars c hc))]
    rfl
  have hat2 : attempt2 (fmtYmd y m d) = none := by
    unfold attempt2
    rw [show str "," = (',' : Char) :: ([] : Str) from rfl]
    rw [replaceAll_no_head ',' [] [] _ (fun c hc => hallcomma c (hchars c hc))]
    rw [pySplit_no_ws _ (fun c hc => hallsp c (hchars c hc)) (by rw [hstruct]; simp)]
  have hYmd : parse_Ymd (fmtYmd y m d) = some (y, m, d) :=
    parse_Ymd_fmt y m d hy1 hy2 hm1 hm2 hd1 hd2
  exact fmt_eval_Ymd t (fmtYmd y m d) y m d hne hnorm hbdY hat2 hmark hbdY2 hYmd

theorem fmt_unrecognized (t : Today) (s : Str)
    (h0 : s ≠ str "Date not found")
    (h1 : parse_bdY (normalizeInput s) = none)
    (h2 : attempt2 (normalizeInput s) = none)
    (h3 : hasRecencyMarker (normalizeInput s) = false)
    (h4 : parse_bdY (normalizeInput s ++ str ", " ++ (Nat.repr t.y).toList) = none)
    (h5 : parse_Ymd (normalizeInput s) = none) :
    format_substack_date t s = normalizeInput s := by
  simp only [format_substack_date, eq_false h0, if_false, h1, h2, h3, h4, h5,
    Bool.false_eq_true]

/-- C5 (amended): every already-canonical zero-padded valid calendar date
is returned unchanged; an input recognised by none of the parse attempts
(no month-abbreviation date, no recency marker, not canonical) and
different from the sentinel is returned as its *cleaned* form — stripped
of surrounding whitespace with unit words normalised — which equals the
raw input whenever the input is already stripped and free of unit-word
rewrites, and normalisation never fails. -/
theorem date_normalizer_identity :
    (∀ (t : Today) (y m d : Nat), 1 ≤ y → y ≤ 9999 → 1 ≤ m → m ≤ 12 → 1 ≤ d →
      d ≤ daysInMonth y m → format_substack_date t (fmtYmd y m d) = fmtYmd y m d) ∧
    (∀ (t : Today) (s : Str), s ≠ str "Date not found" →
      parse_bdY (normalizeInput s) = none →
      attempt2 (normalizeInput s) = none →
      hasRecencyMarker (normalizeInput s) = false →
      parse_bdY (normalizeInput s ++ str ", " ++ (Nat.repr t.y).toList) = none →
      parse_Ymd (normalizeInput s) = none →
      format_substack_date t s = normalizeInput s) :=
  ⟨fun t y m d h1 h2 h3 h4 h5 h6 => fmt_canonical t y m d h1 h2 h3 h4 h5 h6,
   fun t s h0 h1 h2 h3 h4 h5 => fmt_unrecognized t s h0 h1 h2 h3 h4 h5⟩

/-! ## C4: scrape-cap invariant -/

theorem scrapeStep_processed (env : ScrapeEnv) (st : ScrapeState) (u : Str) :
    (scrapeStep env st u).processedUrlsCount = st.processedUrlsCount := by
  unfold scrapeStep
  by_cases h1 : existsF st.fs (mdPathOf env u) = true
  · simp [h1]
  · by_cases h2 : premiumCheck env u = true
    · simp [h1, h2]
    · rcases h3 : env.getSoup u with _ | soup
      · simp [h1, h2, h3]
      · simp [h1, h2, h3]

theorem scrapeStep_count (env : ScrapeEnv) (st : ScrapeState) (u : Str) :
    st.count ≤ (scrapeStep env st u).count ∧ (scrapeStep env st u).count ≤ st.count + 1 := by
  unfold scrapeStep
  by_cases h1 : existsF st.fs (mdPathOf env u) = true
  · simp [h1]
  · by_cases h2 : premiumCheck env u = true
    · simp [h1, h2]
    · rcases h3 : env.getSoup u with _ | soup
      · simp [h1, h2, h3]
      · simp [h1, h2, h3]

theorem scrapeLoop_zero_visits_all (env : ScrapeEnv) :
    ∀ (urls : List Str) (st : ScrapeState), (scrapeLoop env 0 st urls).2 = urls := by
  intro urls
  induction urls with
  | nil => intro st; rfl
  | cons u rest ih =>
    intro st
    simp only [scrapeLoop]
    rw [if_neg (by simp), if_neg (by simp)]
    simp [ih]

theorem scrapeLoop_visited_take (env : ScrapeEnv) (N : Int) :
    ∀ (urls : List Str) (st : ScrapeState),
      (scrapeLoop env N st urls).2 = urls.take (scrapeLoop env N st urls).2.length := by
  intro urls
  induction urls with
  | nil => intro st; rfl
  | cons u rest ih =>
    intro st
    simp only [scrapeLoop]
    by_cases h1 : N ≠ 0 ∧ (st.processedUrlsCount : Int) ≥ N
    · rw [if_pos h1]
      rfl
    · rw [if_neg h1]
      by_cases h2 : N ≠ 0 ∧ ((scrapeStep env st u).count : Int) ≥ N
      · rw [if_pos h2]
        rfl
      · rw [if_neg h2]
        simp only [List.length_cons, List.take_succ_cons, List.cons.injEq, true_and]
        exact ih (scrapeStep env st u)

theorem scrapeLoop_cap_le (env : ScrapeEnv) (N : Int) (hN : 0 < N) :
    ∀ (urls : List Str) (st : ScrapeState), st.processedUrlsCount = 0 →
      ((st.count : Int) < N) →
      (((scrapeLoop env N st urls).1.count : Int) ≤ N ∧
        ((scrapeLoop env N st urls).2.length < urls.length →
          ((scrapeLoop env N st urls).1.count : Int) = N)) := by
  intro urls
  induction urls with
  | nil =>
    intro st _ hlt
    exact ⟨le_of_lt hlt, by intro h; simp at h⟩
  | cons u rest ih =>
    intro st hproc hlt
    simp only [scrapeLoop]
    rw [if_neg (by
      rintro ⟨-, hge⟩
      rw [hproc] at hge
      omega)]
    have hcnt := scrapeStep_count env st u
    have hle1 : ((scrapeStep env st u).count : Int) ≤ N := by
      have := hcnt.2
      omega
    by_cases h2 : N ≠ 0 ∧ ((scrapeStep env st u).count : Int) ≥ N
    · rw [if_pos h2]
      exact ⟨hle1, fun _ => le_antisymm hle1 h2.2⟩
    · rw [if_neg h2]
      have hlt2 : ((scrapeStep env st u).count : Int) < N := by
        rcases not_and_or.mp h2 with h | h
        · exact absurd (by omega : N ≠ 0) h
        · omega
      have hrec := ih (scrapeStep env st u)
        (by rw [scrapeStep_processed, hproc]) hlt2
      refine ⟨hrec.1, ?_⟩
      intro hlen
      simp only [List.length_cons] at hlen
      exact hrec.2 (by omega)

/-- C4: with a positive cap `N` the number of newly persisted posts never
exceeds `N`, the loop stops right when the count reaches `N` (the visited
URLs are a proper prefix only when the count has hit `N` exactly), the
visited URLs always form a prefix of the resolved list, and with cap `0`
every resolved URL is visited. -/
theorem scrape_cap_invariant :
    (∀ (env : ScrapeEnv) (N : Int) (fs : FileSys) (urls : List Str), 0 < N →
      ((scrapeLoop env N ⟨fs, [], 0, 0⟩ urls).1.count : Int) ≤ N) ∧
    (∀ (env : ScrapeEnv) (N : Int) (fs : FileSys) (urls : List Str), 0 < N →
      (scrapeLoop env N ⟨fs, [], 0, 0⟩ urls).2.length < urls.length →
      ((scrapeLoop env N ⟨fs, [], 0, 0⟩ urls).1.count : Int) = N) ∧
    (∀ (env : ScrapeEnv) (N : Int) (fs : FileSys) (urls : List Str),
      (scrapeLoop env N ⟨fs, [], 0, 0⟩ urls).2
        = urls.take (scrapeLoop env N ⟨fs, [], 0, 0⟩ urls).2.length) ∧
    (∀ (env : ScrapeEnv) (fs : FileSys) (urls : List Str),
      (scrapeLoop env 0 ⟨fs, [], 0, 0⟩ urls).2 = urls) :=
  ⟨fun env N fs urls hN =>
    (scrapeLoop_cap_le env N hN urls ⟨fs, [], 0, 0⟩ rfl (by simpa using hN)).1,
   fun env N fs urls hN hlen =>
    (scrapeLoop_cap_le env N hN urls ⟨fs, [], 0, 0⟩ rfl (by simpa using hN)).2 hlen,
   fun env N fs urls => scrapeLoop_visited_take env N urls ⟨fs, [], 0, 0⟩,
   fun env fs urls => scrapeLoop_zero_visits_all env urls ⟨fs, [], 0, 0⟩⟩

/-- Witness for `scrape_cap_invariant` at a concrete two-URL run. -/
theorem scrape_cap_invariant_witness :
    ((scrapeLoop envFeedless 1 ⟨[], [], 0, 0⟩ [str "s/a", str "s/b"]).1.count : Int) ≤ 1 ∧
    ((scrapeLoop envFeedless 1 ⟨[], [], 0, 0⟩ [str "s/a", str "s/b"]).1.count : Int) = 1 ∧
    (scrapeLoop envFeedless 0 ⟨[], [], 0, 0⟩ [str "s/a", str "s/b"]).2
      = [str "s/a", str "s/b"] :=
  ⟨scrape_cap_invariant.1 envFeedless 1 [] [str "s/a", str "s/b"] (by decide),
   scrape_cap_invariant.2.1 envFeedless 1 [] [str "s/a", str "s/b"] (by decide) (by decide),
   scrape_cap_invariant.2.2.2 envFeedless [] [str "s/a", str "s/b"]⟩

/-! ## C1: idempotence of the ingestion run -/

/-- A URL the loop body leaves the state unchanged for: its markdown file
already exists, or the premium pre-check fires, or the transport yields no
soup. -/
def skipsAt (env : ScrapeEnv) (fs : FileSys) (u : Str) : Prop :=
  existsF fs (mdPathOf env u) = true ∨ premiumCheck env u = true ∨ env.getSoup u = none

theorem scrapeStep_skip (env : ScrapeEnv) (st : ScrapeState) (u : Str)
    (h : skipsAt env st.fs u) : scrapeStep env st u = st := by
  unfold scrapeStep
  rcases h with h | h | h
  · simp [h]
  · by_cases h1 : existsF st.fs (mdPathOf env u) = true
    · simp [h1]
    · simp [h1, h]
  · by_cases h1 : existsF st.fs (mdPathOf env u) = true
    · simp [h1]
    · by_cases h2 : premiumCheck env u = true
      · simp [h1, h2]
      · simp [h1, h2, h]

theorem scrapeStep_fs_mono (env : ScrapeEnv) (st : ScrapeState) (u p : Str)
    (h : existsF st.fs p = true) : existsF (scrapeStep env st u).fs p = true := by
  unfold scrapeStep
  by_cases h1 : existsF st.fs (mdPathOf env u) = true
  · simpa [h1] using h
  · by_cases h2 : premiumCheck env u = true
    · simpa [h1, h2] using h
    · rcases h3 : env.getSoup u with _ | soup
      · simpa [h1, h2, h3] using h
      · simp only [h1, h2, h3, Bool.false_eq_true, if_false]
        exact existsF_write_of _ _ _ _ (existsF_save_of _ _ _ _ h)

theorem scrapeStep_persists (env : ScrapeEnv) (st : ScrapeState) (u : Str) (soup : Soup)
    (h1 : existsF st.fs (mdPathOf env u) = false) (h2 : premiumCheck env u = false)
    (h3 : env.getSoup u = some soup) :
    existsF (scrapeStep env st u).fs (mdPathOf env u) = true := by
  simp only [scrapeStep, h1, h2, h3, Bool.false_eq_true, if_false]
  exact existsF_write_of _ _ _ _ (existsF_save_self st.fs (mdPathOf env u) _)

theorem scrapeLoop_fs_mono (env : ScrapeEnv) (N : Int) :
    ∀ (urls : List Str) (st : ScrapeState) (p : Str), existsF st.fs p = true →
      existsF (scrapeLoop env N st urls).1.fs p = true := by
  intro urls
  induction urls with
  | nil => intro st p h; exact h
  | cons u rest ih =>
    intro st p h
    simp only [scrapeLoop]
    by_cases hb1 : N ≠ 0 ∧ (st.processedUrlsCount : Int) ≥ N
    · rw [if_pos hb1]
      exact h
    · rw [if_neg hb1]
      have hstep := scrapeStep_fs_mono env st u p h
      by_cases hb2 : N ≠ 0 ∧ ((scrapeStep env st u).count : Int) ≥ N
      · rw [if_pos hb2]
        exact hstep
      · rw [if_neg hb2]
        exact ih (scrapeStep env st u) p hstep

theorem scrapeLoop_skips_all (env : ScrapeEnv) :
    ∀ (urls : List Str) (st : ScrapeState) (u : Str), u ∈ urls →
      skipsAt env (scrapeLoop env 0 st urls).1.fs u := by
  intro urls
  induction urls with
  | nil => intro st u hu; simp at hu
  | cons v rest ih =>
    intro st u hu
    have hred : scrapeLoop env 0 st (v :: rest)
        = ((scrapeLoop env 0 (scrapeStep env st v) rest).1,
           v :: (scrapeLoop env 0 (scrapeStep env st v) rest).2) := by
      simp only [scrapeLoop]
      rw [if_neg (by simp), if_neg (by simp)]
    rw [hred]
    rcases List.mem_cons.mp hu with rfl | hu2
    · by_cases hex : existsF st.fs (mdPathOf env u) = true
      · exact Or.inl (scrapeLoop_fs_mono env 0 rest _ _
          (scrapeStep_fs_mono env st u _ hex))
      · by_cases hprem : premiumCheck env u = true
        · exact Or.inr (Or.inl hprem)
        · rcases hsoup : env.getSoup u with _ | soup
          · exact Or.inr (Or.inr hsoup)
          · have hst1 := scrapeStep_persists env st u soup
              (by simpa using hex) (by simpa using hprem) hsoup
            exact Or.inl (scrapeLoop_fs_mono env 0 rest _ _ hst1)
    · exact ih (scrapeStep env st v) u hu2

theorem scrapeLoop_noop (env : ScrapeEnv) :
    ∀ (urls : List Str) (st : ScrapeState), (∀ u ∈ urls, skipsAt env st.fs u) →
      scrapeLoop env 0 st urls = (st, urls) := by
  intro urls
  induction urls with
  | nil => intro st _; rfl
  | cons v rest ih =>
    intro st h
    have hv := scrapeStep_skip env st v (h v (by simp))
    simp only [scrapeLoop]
    rw [if_neg (by simp), hv, if_neg (by simp)]
    rw [ih st (fun u hu => h u (by simp [hu]))]

/-- C1 (amended): with an unbounded cap a second run over the same URL set
is a no-op — it persists no markdown file and leaves the dataset exactly
as the first run left it; independently of the cap, an existing file at
the computed path is never overwritten, and the dataset merge appends only
records not already present.  (With a positive cap smaller than the number
of unpersisted URLs, a second run does persist further new — though never
duplicate — files and records; see the counterexample.) -/
theorem scrape_idempotent :
    (∀ (env : ScrapeEnv) (urls : List Str) (w : World),
      scrape_posts env 0 urls (scrape_posts env 0 urls w).1
        = ((scrape_posts env 0 urls w).1, urls)) ∧
    (∀ (fs : FileSys) (p c : Str), existsF fs p = true → save_to_file fs p c = fs) ∧
    (∀ (ex newRecs : List Record) (r : Record),
      r ∈ save_essays_data (some ex) newRecs → r ∈ ex ∨ (r ∈ newRecs ∧ r ∉ ex)) := by
  refine ⟨?_, ?_, ?_⟩
  · intro env urls w
    unfold scrape_posts
    have hno := scrapeLoop_noop env urls
      ⟨(scrapeLoop env 0 ⟨w.fs, [], 0, 0⟩ urls).1.fs, [], 0, 0⟩
      (fun u hu => scrapeLoop_skips_all env urls ⟨w.fs, [], 0, 0⟩ u hu)
    rw [hno]
    simp [save_essays_data]
  · intro fs p c h
    unfold save_to_file
    rw [if_pos h]
  · intro ex newRecs r h
    unfold save_essays_data at h
    rw [List.mem_append] at h
    rcases h with h | h
    · exact Or.inl h
    · have hm := List.mem_filter.mp h
      refine Or.inr ⟨hm.1, ?_⟩
      intro hmem
      have hb := hm.2
      rw [List.contains, List.elem_eq_mem, decide_eq_true hmem] at hb
      simp at hb

/-- C1 counterexample: with the configured cap 1 (a positive cap, as in
the shipped configuration) and two scrapeable URLs, the second run over
the same unchanged URL set persists a new markdown file and extends the
dataset. -/
theorem scrape_idempotent_counterexample :
    existsF ((scrape_posts envFeedless 1 [str "s/a", str "s/b"] ⟨[], none⟩).1).fs
        (mdPathOf envFeedless (str "s/b")) = false ∧
    existsF ((scrape_posts envFeedless 1 [str "s/a", str "s/b"]
        (scrape_posts envFeedless 1 [str "s/a", str "s/b"] ⟨[], none⟩).1).1).fs
        (mdPathOf envFeedless (str "s/b")) = true ∧
    ((scrape_posts envFeedless 1 [str "s/a", str "s/b"]
        (scrape_posts envFeedless 1 [str "s/a", str "s/b"] ⟨[], none⟩).1).1).dataset
      ≠ ((scrape_posts envFeedless 1 [str "s/a", str "s/b"] ⟨[], none⟩).1).dataset :=
  ⟨by decide, by decide, by decide⟩

/-- Witness for `scrape_idempotent` at a concrete environment: the second
unbounded run changes nothing, overwrite is refused on an existing file,
and merging a duplicate record is a no-op. -/
theorem scrape_idempotent_witness :
    scrape_posts envFeedless 0 [str "s/a"]
        (scrape_posts envFeedless 0 [str "s/a"] ⟨[], none⟩).1
      = ((scrape_posts envFeedless 0 [str "s/a"] ⟨[], none⟩).1, [str "s/a"]) ∧
    save_to_file [(str "p", str "old")] (str "p") (str "new")
      = [(str "p", str "old")] ∧
    (⟨none, none, none, none, none, none⟩ : Record) ∈ [(⟨none, none, none, none, none, none⟩ : Record)] :=
  ⟨scrape_idempotent.1 envFeedless [str "s/a"] ⟨[], none⟩,
   scrape_idempotent.2.1 [(str "p", str "old")] (str "p") (str "new") (by decide),
   (scrape_idempotent.2.2 [⟨none, none, none, none, none, none⟩]
      [⟨none, none, none, none, none, none⟩] ⟨none, none, none, none, none, none⟩
      (by decide)).elim id (fun h => h.1)⟩

/-- C5 counterexample: `"banana "` matches none of the recognised forms,
yet the result is the stripped string `"banana"`, not the raw input. -/
theorem date_normalizer_identity_counterexample :
    format_substack_date ⟨2026, 10, 12⟩ (str "banana ") = str "banana" ∧
      str "banana" ≠ str "banana " :=
  ⟨by decide, by decide⟩

/-- Witness for `date_normalizer_identity` at a canonical leap-day date
and at the unparseable input `"banana"`. -/
theorem date_normalizer_identity_witness :
    format_substack_date ⟨2026, 10, 12⟩ (str "2024-02-29") = str "2024-02-29" ∧
      format_substack_date ⟨2026, 10, 12⟩ (str "banana") = str "banana" := by
  constructor
  · have h := date_normalizer_identity.1 ⟨2026, 10, 12⟩ 2024 2 29 (by decide) (by decide)
      (by decide) (by decide) (by decide) (by decide)
    rw [show str "2024-02-29" = fmtYmd 2024 2 29 from by decide]
    exact h
  · have h := date_normalizer_identity.2 ⟨2026, 10, 12⟩ (str "banana") (by decide)
      (by decide) (by decide) (by decide) (by decide) (by decide)
    rw [show normalizeInput (str "banana") = str "banana" from by decide] at h
    exact h

